import Mathlib

/-!
Verification of the stock-ledger core of the Integrated Deal and Product System
(IDPS) backend, a shallow embedding of `backend/app/services/stock_service.py`
and the parts of `backend/app/models/stock.py` and `backend/app/api/v1/stock.py`
it relies on.

Conventions of the embedding:
* Python `float` quantities are embedded as `ℚ` (the claims under study concern
  exact arithmetic relationships such as flooring at zero and conservation, not
  rounding of IEEE floats).
* `datetime.date` values are embedded as `Nat` ordinals, `created_at`
  timestamps as `Option Nat` (`none` = NULL in the database).
* The `location` and `transaction_type` columns are embedded as inductive
  enumerations: the pydantic validators in `models/stock.py`
  (`validate_location`, `validate_transaction_type`) reject any value outside
  `LOCATIONS` / `TRANSACTION_TYPES`, so every `StockMovement` object the
  service ever handles carries exactly one of those values and the
  `.lower()` normalisations in the service are identities.
  `transfer_to_location` is unvalidated text in the source; it is embedded as
  `Option Location` because every comparison made on it in the service is an
  equality test against one of the three enumerated values.
* Display-only text columns (`supplier_name`, `customer_name`, `brand`,
  `reference`, `remark`, `warehouse`, `unit`, `business_model`) are read and
  written by the service but never influence any balance computation or
  control flow relevant to the claims; they are omitted from the record.
* The `stock_movements` table is embedded as a `List Movement` in insertion
  order; the PostgREST fetch `order("date", desc=True).order("created_at",
  desc=True).limit(n)` is embedded as an explicit descending sort followed by
  `take n` (PostgreSQL places NULLs first in descending order).
-/

namespace IDPS

/-- The three warehouse locations (`LOCATIONS` in `models/stock.py`). -/
inductive Location
  | addisAbaba
  | sezKenya
  | nairobiPartner
deriving DecidableEq, Repr

/-- The six transaction types (`TRANSACTION_TYPES` in `models/stock.py`). -/
inductive TransactionType
  | sales
  | purchase
  | interCompanyTransfer
  | sample
  | damage
  | stockAvailability
deriving DecidableEq, Repr

/-- One row of the `stock_movements` table, as modelled by `StockMovement`
in `models/stock.py` (quantity and ordering fields only; see file header). -/
structure Movement where
  id : Nat
  product_id : Nat
  date : Nat
  created_at : Option Nat
  location : Location
  transaction_type : TransactionType
  beginning_balance : ℚ
  purchase_kg : ℚ
  sold_kg : ℚ
  purchase_direct_shipment_kg : ℚ
  sold_direct_shipment_kg : ℚ
  sample_or_damage_kg : ℚ
  inter_company_transfer_kg : ℚ
  transfer_to_location : Option Location
  balance_kg : ℚ
deriving DecidableEq, Repr

/-- Sort key used by the in-memory Python sorts:
`key=lambda m: (m.date, m.created_at if m.created_at else min_datetime)`.
A missing `created_at` compares like `datetime.min`, i.e. strictly before
every real timestamp, which `0` versus `t + 1` reproduces. -/
def createdKey : Option Nat → Nat
  | none => 0
  | some t => t + 1

/-- The `(date, created_at-or-min)` tuple comparison of the Python sorts,
as an executable boolean test. -/
def pyLeB (a b : Movement) : Bool :=
  decide (a.date < b.date) ||
    (decide (a.date = b.date) && decide (createdKey a.created_at ≤ createdKey b.created_at))

/-- The `(date, created_at-or-min)` tuple comparison of the Python sorts. -/
def pyLe (a b : Movement) : Prop :=
  pyLeB a b = true

instance : DecidableRel pyLe := fun a b => instDecidableEqBool (pyLeB a b) true

instance : IsTotal Movement pyLe := by
  constructor
  intro a b
  simp only [pyLe, pyLeB, Bool.or_eq_true, Bool.and_eq_true, decide_eq_true_eq]
  rcases Nat.lt_trichotomy a.date b.date with h | h | h
  · exact Or.inl (Or.inl h)
  · rcases Nat.le_total (createdKey a.created_at) (createdKey b.created_at) with h2 | h2
    · exact Or.inl (Or.inr ⟨h, h2⟩)
    · exact Or.inr (Or.inr ⟨h.symm, h2⟩)
  · exact Or.inr (Or.inl h)

instance : IsTrans Movement pyLe := by
  constructor
  intro a b c hab hbc
  simp only [pyLe, pyLeB, Bool.or_eq_true, Bool.and_eq_true, decide_eq_true_eq] at *
  rcases hab with h1 | ⟨h1, h1'⟩ <;> rcases hbc with h2 | ⟨h2, h2'⟩
  · exact Or.inl (h1.trans h2)
  · exact Or.inl (h2 ▸ h1)
  · exact Or.inl (h1 ▸ h2)
  · exact Or.inr ⟨h1.trans h2, h1'.trans h2'⟩

/-- `created_at` comparison of the database fetch ordering (descending,
NULLs first): `a`'s timestamp ranks no later than `b`'s. -/
def createdDbBeforeB : Option Nat → Option Nat → Bool
  | none, _ => true
  | some _, none => false
  | some x, some y => decide (y ≤ x)

/-- Ordering of the database fetch in `list_stock_movements`:
`order("date", desc=True).order("created_at", desc=True)`; `a` is returned no
later than `b`.  NULL `created_at` sorts first (i.e. as newest) in a
PostgreSQL descending order. -/
def dbBefore (a b : Movement) : Prop :=
  (decide (b.date < a.date) ||
    (decide (a.date = b.date) && createdDbBeforeB a.created_at b.created_at)) = true

instance : DecidableRel dbBefore := fun _ _ => instDecidableEqBool _ true

instance : IsTotal Movement dbBefore := by
  constructor
  intro a b
  simp only [dbBefore, Bool.or_eq_true, Bool.and_eq_true, decide_eq_true_eq]
  rcases Nat.lt_trichotomy a.date b.date with h | h | h
  · exact Or.inr (Or.inl h)
  · rcases a.created_at with _ | x <;> rcases b.created_at with _ | y
    · exact Or.inl (Or.inr ⟨h, rfl⟩)
    · exact Or.inl (Or.inr ⟨h, rfl⟩)
    · exact Or.inr (Or.inr ⟨h.symm, rfl⟩)
    · rcases Nat.le_total x y with h2 | h2
      · exact Or.inr (Or.inr ⟨h.symm, by simpa [createdDbBeforeB] using h2⟩)
      · exact Or.inl (Or.inr ⟨h, by simpa [createdDbBeforeB] using h2⟩)
  · exact Or.inl (Or.inl h)

instance : IsTrans Movement dbBefore := by
  constructor
  intro a b c hab hbc
  have htrans : ∀ x y z : Option Nat, createdDbBeforeB x y = true →
      createdDbBeforeB y z = true → createdDbBeforeB x z = true := by
    intro x y z h1 h2
    match x, y, z with
    | none, _, _ => rfl
    | some _, none, _ => simp [createdDbBeforeB] at h1
    | some _, some _, none => simp [createdDbBeforeB] at h2
    | some x, some y, some z =>
      simp only [createdDbBeforeB, decide_eq_true_eq] at *
      exact h2.trans h1
  simp only [dbBefore, Bool.or_eq_true, Bool.and_eq_true, decide_eq_true_eq] at *
  rcases hab with h1 | ⟨h1, h1'⟩ <;> rcases hbc with h2 | ⟨h2, h2'⟩
  · exact Or.inl (h2.trans h1)
  · exact Or.inl (h2 ▸ h1)
  · exact Or.inl (h1 ▸ h2)
  · exact Or.inr ⟨h1.trans h2, htrans _ _ _ h1' h2'⟩

/-- `list_stock_movements(product_id=pid, limit=limit)`: all rows of the table
for the product, most recent first, truncated to `limit` rows. -/
def listStockMovements (pid : Nat) (limit : Nat) (table : List Movement) : List Movement :=
  (List.insertionSort dbBefore (table.filter (fun m => m.product_id = pid))).take limit

/-- Tag attached by `_recalculate_balances` to each entry of
`location_movements`: `"direct"` or `"transfer_to"`. -/
inductive EntryKind
  | direct
  | transferTo
deriving DecidableEq, Repr

/-- One tagged entry of the `location_movements` list. -/
abbrev Entry := EntryKind × Movement

/-- The entry (if any) that movement `m` contributes to the
`location_movements` list of `_recalculate_balances(product_id, location)`:
a movement at the location is `"direct"`; otherwise an inter-company transfer
whose `transfer_to_location` is the location is `"transfer_to"`. -/
def affectingEntry (loc : Location) (m : Movement) : Option Entry :=
  if m.location = loc then some (EntryKind.direct, m)
  else if m.transaction_type = TransactionType.interCompanyTransfer ∧
      m.transfer_to_location = some loc then
    some (EntryKind.transferTo, m)
  else none

/-- The unsorted `location_movements` list of `_recalculate_balances`. -/
def locationMovements (loc : Location) (ms : List Movement) : List Entry :=
  ms.filterMap (affectingEntry loc)

/-- The Python tuple sort key comparison lifted to tagged entries
(`key=lambda x: (x[1].date, x[1].created_at ...)`). -/
def entryLe (a b : Entry) : Prop :=
  pyLe a.2 b.2

instance : DecidableRel entryLe := fun a b => instDecidableEqBool (pyLeB a.2 b.2) true

instance : IsTotal Entry entryLe :=
  ⟨fun a b => total_of pyLe a.2 b.2⟩

instance : IsTrans Entry entryLe :=
  ⟨fun _ _ _ hab hbc => trans_of pyLe hab hbc⟩

/-- `movement.purchase_kg + movement.purchase_direct_shipment_kg -
movement.sold_kg - movement.sold_direct_shipment_kg -
movement.sample_or_damage_kg`: the regular-transaction net change used by both
`_recalculate_balances` and `_compute_product_stock`. -/
def netChange (m : Movement) : ℚ :=
  m.purchase_kg + m.purchase_direct_shipment_kg - m.sold_kg -
    m.sold_direct_shipment_kg - m.sample_or_damage_kg

/-- The `new_balance` computed by `_recalculate_balances` for one entry from
the running value `current` (lines 748-766 of `stock_service.py`). -/
def stepBalance (loc : Location) (current : ℚ) (e : Entry) : ℚ :=
  match e with
  | (EntryKind.direct, m) =>
      if m.transaction_type = TransactionType.interCompanyTransfer ∧ m.location = loc then
        current - m.inter_company_transfer_kg
      else
        current + netChange m
  | (EntryKind.transferTo, m) => current + m.inter_company_transfer_kg

/-- One `supabase.table("stock_movements").update(...)` issued by
`_recalculate_balances`: the row id together with the new `balance_kg` and
`beginning_balance` values. -/
structure BalWrite where
  id : Nat
  balance_kg : ℚ
  beginning_balance : ℚ
deriving DecidableEq, Repr

/-- The sequence of updates issued by the replay loop of
`_recalculate_balances`, walking the sorted `location_movements` chain.
`prev?` is the entry of the previous iteration, if any.

The first entry's `current_balance` is its own stored `beginning_balance`;
each later entry's `current_balance` is `prev_movement.balance_kg` — the
`balance_kg` attribute of the *fetched* previous object.  The database
updates issued inside the loop are not reflected in those objects, so this
is the previously stored balance, not the freshly computed one. -/
def recalcWritesAux (loc : Location) : Option Movement → List Entry → List BalWrite
  | _, [] => []
  | prev?, e :: rest =>
      let current : ℚ :=
        match prev? with
        | none => e.2.beginning_balance
        | some prev => prev.balance_kg
      { id := e.2.id
        balance_kg := max 0 (stepBalance loc current e)
        beginning_balance := current } ::
        recalcWritesAux loc (some e.2) rest

/-- All updates issued by one `_recalculate_balances` replay over an already
sorted chain. -/
def recalcWrites (loc : Location) (chain : List Entry) : List BalWrite :=
  recalcWritesAux loc none chain

/-- The sorted chain that `_recalculate_balances(pid, loc)` replays, built
from the (at most 10000) fetched movements of the product. -/
def recalcChain (pid : Nat) (loc : Location) (table : List Movement) : List Entry :=
  List.insertionSort entryLe (locationMovements loc (listStockMovements pid 10000 table))

/-- Application of one balance update to one row. -/
def applyWrite (w : BalWrite) (m : Movement) : Movement :=
  if m.id = w.id then
    { m with balance_kg := w.balance_kg, beginning_balance := w.beginning_balance }
  else m

/-- Application of the whole update sequence to the table. -/
def applyWrites (ws : List BalWrite) (table : List Movement) : List Movement :=
  ws.foldl (fun t w => t.map (applyWrite w)) table

/-- `_recalculate_balances(product_id, location)` as a table transformer:
compute all updates from the fetched snapshot, then apply them. -/
def recalculateBalances (pid : Nat) (loc : Location) (table : List Movement) : List Movement :=
  applyWrites (recalcWrites loc (recalcChain pid loc table)) table

/-- Loop state of `_compute_product_stock`: the three running totals and the
`nairobi_stock_availability` list (reserved counters stay `0.0` throughout and
are omitted). -/
structure AggState where
  addis : ℚ
  sez : ℚ
  nairobi : ℚ
  saList : List Movement
deriving DecidableEq, Repr

/-- The running total of an `AggState` at a location. -/
def AggState.at (st : AggState) : Location → ℚ
  | Location.addisAbaba => st.addis
  | Location.sezKenya => st.sez
  | Location.nairobiPartner => st.nairobi

/-- One iteration of the movement loop of `_compute_product_stock`
(lines 261-300 of `stock_service.py`). -/
def aggStep (st : AggState) (m : Movement) : AggState :=
  if m.transaction_type = TransactionType.stockAvailability ∧
      m.location = Location.nairobiPartner then
    { st with saList := st.saList ++ [m] }
  else if m.transaction_type = TransactionType.interCompanyTransfer ∧
      m.location = Location.sezKenya ∧ 0 < m.inter_company_transfer_kg then
    let st1 := { st with sez := st.sez - m.inter_company_transfer_kg }
    match m.transfer_to_location with
    | some Location.addisAbaba => { st1 with addis := st1.addis + m.inter_company_transfer_kg }
    | some Location.sezKenya => { st1 with sez := st1.sez + m.inter_company_transfer_kg }
    | some Location.nairobiPartner =>
        { st1 with nairobi := st1.nairobi + m.inter_company_transfer_kg }
    | none => st1
  else
    match m.location with
    | Location.addisAbaba => { st with addis := st.addis + netChange m }
    | Location.sezKenya => { st with sez := st.sez + netChange m }
    | Location.nairobiPartner => { st with nairobi := st.nairobi + netChange m }

/-- The loop of `_compute_product_stock` over the fetched movements (fetched
most recent first with `limit=10000`). -/
def aggState (pid : Nat) (table : List Movement) : AggState :=
  (listStockMovements pid 10000 table).foldl aggStep ⟨0, 0, 0, []⟩

/-- Python's `max(xs, key=...)` over a nonempty list: the first element whose
`(date, created_at-or-min)` key is maximal.  `best` is the running maximum. -/
def maxByPyKey : List Movement → Movement → Movement
  | [], best => best
  | m :: rest, best =>
      maxByPyKey rest (if pyLe best m ∧ ¬ pyLe m best then m else best)

/-- The three computed per-location totals of `_compute_product_stock`. -/
structure StockTotals where
  addis : ℚ
  sez : ℚ
  nairobi : ℚ
deriving DecidableEq, Repr

/-- The per-location total of a `StockTotals` at a location. -/
def StockTotals.at (t : StockTotals) : Location → ℚ
  | Location.addisAbaba => t.addis
  | Location.sezKenya => t.sez
  | Location.nairobiPartner => t.nairobi

/-- `_compute_product_stock`: run the loop, then override the Nairobi Partner
total with the most recent Stock Availability balance when one exists, then
floor all three totals at zero. -/
def computeProductStock (pid : Nat) (table : List Movement) : StockTotals :=
  let st := aggState pid table
  let nairobiTotal : ℚ :=
    match st.saList with
    | [] => st.nairobi
    | m :: rest => (maxByPyKey rest m).balance_kg
  { addis := max 0 st.addis
    sez := max 0 st.sez
    nairobi := max 0 nairobiTotal }

/-- The exceptions raised by the service layer: `raise ValueError(...)` for
validation and not-found conditions, `raise RuntimeError(...)` for failed
writes.  (The messages are the source strings with the inner quotes elided.) -/
inductive PyError
  | valueError (msg : String)
  | runtimeError (msg : String)
deriving DecidableEq, Repr

/-- The exception class of an error — what `except ValueError` / generic
`except Exception` in the HTTP layer dispatches on. -/
def PyError.kind : PyError → String
  | PyError.valueError _ => "ValueError"
  | PyError.runtimeError _ => "RuntimeError"

/-- The message carried by an error. -/
def PyError.msg : PyError → String
  | PyError.valueError m => m
  | PyError.runtimeError m => m

/-- The referenced-record tables consulted by `create_stock_movement`:
existing product, TDS, supplier (partner) and customer ids. -/
structure Env where
  products : List Nat
  tdsIds : List Nat
  supplierIds : List Nat
  customerIds : List Nat
deriving Repr

/-- The caller-supplied body of `create_stock_movement`
(`StockMovementCreate` in `models/stock.py`; quantity fields are
non-negative by the pydantic `ge=0` constraints). -/
structure MovementCreate where
  product_id : Nat
  tds_id : Option Nat
  date : Nat
  location : Location
  transaction_type : TransactionType
  beginning_balance : ℚ
  purchase_kg : ℚ
  sold_kg : ℚ
  purchase_direct_shipment_kg : ℚ
  sold_direct_shipment_kg : ℚ
  sample_or_damage_kg : ℚ
  inter_company_transfer_kg : ℚ
  transfer_to_location : Option Location
  supplier_id : Option Nat
  customer_id : Option Nat
deriving DecidableEq, Repr

/-- The condition selecting `previous_movements` in the beginning-balance
derivation of `create_stock_movement` (lines 516-535): strictly earlier
date, or the same date with a creation timestamp before `now` (no timestamp
counts as before `now`). -/
def isPrevious (now : Nat) (bodyDate : Nat) (m : Movement) : Bool :=
  decide (m.date < bodyDate) ||
    (decide (m.date = bodyDate) &&
      match m.created_at with
      | some t => decide (t < now)
      | none => true)

/-- The beginning-balance derivation of `create_stock_movement`
(lines 481-552): when the caller left `beginning_balance` at `0.0` and the
movement is not a Stock Availability entry, derive it from the prior ledger
state of the movement's location. -/
def deriveBeginningBalance (now : Nat) (body : MovementCreate) (table : List Movement) : ℚ :=
  if body.beginning_balance = 0 ∧
      body.transaction_type ≠ TransactionType.stockAvailability then
    let movements := listStockMovements body.product_id 10000 table
    if movements.isEmpty then body.beginning_balance
    else
      let target := body.location
      let transfersTo := movements.filter fun m =>
        decide (m.transaction_type = TransactionType.interCompanyTransfer) &&
          decide (m.transfer_to_location = some target)
      let allAffecting :=
        movements.filter (fun m => decide (m.location = target)) ++ transfersTo
      let sortedAffecting := List.insertionSort pyLe allAffecting
      let previousMovements := sortedAffecting.filter (isPrevious now body.date)
      if previousMovements.isEmpty then body.beginning_balance
      else
        match (previousMovements.filter fun m => decide (m.location = target)).getLast? with
        | some latestDirect => latestDirect.balance_kg
        | none =>
            ((transfersTo.filter fun m => decide (m ∈ previousMovements)).map
              (fun m => m.inter_company_transfer_kg)).sum
  else body.beginning_balance

/-- The balance computation of `create_stock_movement` (lines 554-580), after
`beginning_balance` has been derived. -/
def createBalance (body : MovementCreate) : ℚ :=
  if body.transaction_type = TransactionType.stockAvailability then
    body.beginning_balance
  else if body.transaction_type = TransactionType.interCompanyTransfer ∧
      body.location = Location.sezKenya then
    body.beginning_balance - body.inter_company_transfer_kg
  else
    let balance :=
      body.beginning_balance + body.purchase_kg + body.purchase_direct_shipment_kg -
        body.sold_kg - body.sold_direct_shipment_kg - body.sample_or_damage_kg
    if body.transfer_to_location = some body.location then
      balance + body.inter_company_transfer_kg
    else balance

/-- The row inserted by `create_stock_movement`: the body's fields with
`balance_kg = max(0.0, balance)`, the database-assigned id and creation
timestamp. -/
def insertedRow (newId newCreated : Nat) (body : MovementCreate) : Movement :=
  { id := newId
    product_id := body.product_id
    date := body.date
    created_at := some newCreated
    location := body.location
    transaction_type := body.transaction_type
    beginning_balance := body.beginning_balance
    purchase_kg := body.purchase_kg
    sold_kg := body.sold_kg
    purchase_direct_shipment_kg := body.purchase_direct_shipment_kg
    sold_direct_shipment_kg := body.sold_direct_shipment_kg
    sample_or_damage_kg := body.sample_or_damage_kg
    inter_company_transfer_kg := body.inter_company_transfer_kg
    transfer_to_location := body.transfer_to_location
    balance_kg := max 0 (createBalance body) }

/-- An optional referenced id that is supplied but absent from its table
(the `if body.x_id: ... if not record: raise` pattern of
`create_stock_movement`). -/
def refMissing (ref : Option Nat) (ids : List Nat) : Prop :=
  match ref with
  | some t => t ∉ ids
  | none => False

instance : ∀ ref ids, Decidable (refMissing ref ids) := fun ref ids => by
  unfold refMissing
  rcases ref with _ | t
  · exact instDecidableFalse
  · exact instDecidableNot

/-- `create_stock_movement` as a table transformer: validations in source
order, beginning-balance derivation, balance computation, insert, then
recalculation of the movement's location and (for transfers with a
destination) of the destination location. -/
def createStockMovement (env : Env) (now newId newCreated : Nat) (body : MovementCreate)
    (table : List Movement) : Except PyError (List Movement) :=
  if body.product_id ∉ env.products then
    Except.error (PyError.valueError "Product not found")
  else if body.location = Location.nairobiPartner ∧
      body.transaction_type ≠ TransactionType.stockAvailability then
    Except.error (PyError.valueError
      "Nairobi Partner location can only have Stock Availability transaction type")
  else if body.location ≠ Location.nairobiPartner ∧
      body.transaction_type = TransactionType.stockAvailability then
    Except.error (PyError.valueError
      "Stock Availability transaction type is only allowed for Nairobi Partner location")
  else if refMissing body.tds_id env.tdsIds then
    Except.error (PyError.valueError "TDS not found")
  else if refMissing body.supplier_id env.supplierIds then
    Except.error (PyError.valueError "Supplier not found")
  else if refMissing body.customer_id env.customerIds then
    Except.error (PyError.valueError "Customer not found")
  else
    let body' := { body with beginning_balance := deriveBeginningBalance now body table }
    let table1 := table ++ [insertedRow newId newCreated body']
    let table2 := recalculateBalances body.product_id body.location table1
    let table3 :=
      if body.transaction_type = TransactionType.interCompanyTransfer then
        match body.transfer_to_location with
        | some dest => recalculateBalances body.product_id dest table2
        | none => table2
      else table2
    Except.ok table3

/-- The caller-supplied partial body of `update_stock_movement`
(`StockMovementUpdate` in `models/stock.py`): `none` means the field was not
supplied (`model_dump(exclude_unset=True)` drops it). -/
structure MovementUpdate where
  date : Option Nat := none
  location : Option Location := none
  transaction_type : Option TransactionType := none
  beginning_balance : Option ℚ := none
  purchase_kg : Option ℚ := none
  sold_kg : Option ℚ := none
  purchase_direct_shipment_kg : Option ℚ := none
  sold_direct_shipment_kg : Option ℚ := none
  sample_or_damage_kg : Option ℚ := none
  inter_company_transfer_kg : Option ℚ := none
  transfer_to_location : Option (Option Location) := none
  balance_kg : Option ℚ := none
deriving DecidableEq, Repr

/-- `update_data` is nonempty: at least one field was supplied. -/
def MovementUpdate.anySet (u : MovementUpdate) : Bool :=
  u.date.isSome || u.location.isSome || u.transaction_type.isSome ||
    u.beginning_balance.isSome || u.purchase_kg.isSome || u.sold_kg.isSome ||
    u.purchase_direct_shipment_kg.isSome || u.sold_direct_shipment_kg.isSome ||
    u.sample_or_damage_kg.isSome || u.inter_company_transfer_kg.isSome ||
    u.transfer_to_location.isSome || u.balance_kg.isSome

/-- One of the seven `quantity_fields` of `update_stock_movement` was
supplied. -/
def MovementUpdate.quantitySet (u : MovementUpdate) : Bool :=
  u.beginning_balance.isSome || u.purchase_kg.isSome || u.sold_kg.isSome ||
    u.purchase_direct_shipment_kg.isSome || u.sold_direct_shipment_kg.isSome ||
    u.sample_or_damage_kg.isSome || u.inter_company_transfer_kg.isSome

/-- The direct field patch of the non-quantity update path
(`supabase...update(update_data)`). -/
def applyPatch (u : MovementUpdate) (m : Movement) : Movement :=
  { m with
    date := u.date.getD m.date
    location := u.location.getD m.location
    transaction_type := u.transaction_type.getD m.transaction_type
    beginning_balance := u.beginning_balance.getD m.beginning_balance
    purchase_kg := u.purchase_kg.getD m.purchase_kg
    sold_kg := u.sold_kg.getD m.sold_kg
    purchase_direct_shipment_kg :=
      u.purchase_direct_shipment_kg.getD m.purchase_direct_shipment_kg
    sold_direct_shipment_kg := u.sold_direct_shipment_kg.getD m.sold_direct_shipment_kg
    sample_or_damage_kg := u.sample_or_damage_kg.getD m.sample_or_damage_kg
    inter_company_transfer_kg :=
      u.inter_company_transfer_kg.getD m.inter_company_transfer_kg
    transfer_to_location := u.transfer_to_location.getD m.transfer_to_location
    balance_kg := u.balance_kg.getD m.balance_kg }

/-- The quantity-field branch of `update_stock_movement` (lines 649-660 of
`stock_service.py`): rerun `_recalculate_balances` for the existing
movement's location (and, for transfers, its destination), then reload the
row.  Nothing from the update body is consulted. -/
def quantityRecalcResult (mid : Nat) (existing : Movement) (table : List Movement) :
    Except PyError (List Movement) :=
  let t1 := recalculateBalances existing.product_id existing.location table
  let t2 :=
    if existing.transaction_type = TransactionType.interCompanyTransfer then
      match existing.transfer_to_location with
      | some dest => recalculateBalances existing.product_id dest t1
      | none => t1
    else t1
  match t2.find? (fun m => m.id = mid) with
  | some _ => Except.ok t2
  | none =>
      Except.error (PyError.valueError "Stock movement not found after recalculation")

/-- `update_stock_movement` as a table transformer.  When any quantity field
was supplied, the update body is never written: the service only reruns
`_recalculate_balances` (for the movement's location and, for transfers, the
destination) and reloads the row. -/
def updateStockMovement (mid : Nat) (u : MovementUpdate) (table : List Movement) :
    Except PyError (List Movement) :=
  match table.find? (fun m => m.id = mid) with
  | none => Except.error (PyError.valueError "Stock movement not found")
  | some existing =>
      if ¬ u.anySet then Except.ok table
      else if u.quantitySet then quantityRecalcResult mid existing table
      else
        Except.ok (table.map fun m => if m.id = mid then applyPatch u m else m)

/-- `delete_stock_movement` as a table transformer: remove the row, then
recalculate the vacated location(s) using the pre-deletion values. -/
def deleteStockMovement (mid : Nat) (table : List Movement) :
    Except PyError (List Movement) :=
  match table.find? (fun m => m.id = mid) with
  | none => Except.error (PyError.valueError "Stock movement not found")
  | some existing =>
      let t1 := table.filter (fun m => decide (m.id ≠ mid))
      let t2 := recalculateBalances existing.product_id existing.location t1
      let t3 :=
        if existing.transaction_type = TransactionType.interCompanyTransfer then
          match existing.transfer_to_location with
          | some dest => recalculateBalances existing.product_id dest t2
          | none => t2
        else t2
      Except.ok t3

/-- HTTP status produced by the `POST /stock/movements` endpoint of
`api/v1/stock.py`: `ValueError` maps to 400, any other exception to 500. -/
def createEndpointStatus (r : Except PyError (List Movement)) : Nat :=
  match r with
  | Except.ok _ => 201
  | Except.error (PyError.valueError _) => 400
  | Except.error (PyError.runtimeError _) => 500

/-- HTTP status produced by the `PUT /stock/movements/id` endpoint:
`ValueError` maps to 404, any other exception to 500. -/
def updateEndpointStatus (r : Except PyError (List Movement)) : Nat :=
  match r with
  | Except.ok _ => 200
  | Except.error (PyError.valueError _) => 404
  | Except.error (PyError.runtimeError _) => 500

/-- HTTP status produced by the `DELETE /stock/movements/id` endpoint:
`ValueError` maps to 404, any other exception to 500. -/
def deleteEndpointStatus (r : Except PyError (List Movement)) : Nat :=
  match r with
  | Except.ok _ => 204
  | Except.error (PyError.valueError _) => 404
  | Except.error (PyError.runtimeError _) => 500

/-!
### Specification-side replay (section 4.1/4.2 of the spec)

The following definitions are written from the *specification's words*, not
from the source; they exist only to be compared against the source-derived
`computeProductStock` (the refinement stated in the spec's section 4.2).
-/

/-- Modelled from the spec, 4.1 step 2: the entries affecting a target
location are (a) movements recorded at that location and (b) inter-company
transfers recorded at a different location whose destination names this
location. -/
def specAffectingEntry (loc : Location) (m : Movement) : Option Entry :=
  if m.location = loc then some (EntryKind.direct, m)
  else if m.transaction_type = TransactionType.interCompanyTransfer ∧
      m.transfer_to_location = some loc then
    some (EntryKind.transferTo, m)
  else none

/-- Modelled from the spec, 4.1 step 2: the unsorted affecting sequence. -/
def specAffecting (loc : Location) (ms : List Movement) : List Entry :=
  ms.filterMap (specAffectingEntry loc)

/-- Modelled from the spec, 4.1 step 4: the ending balance of one entry from
its starting balance — direct origin transfers subtract, other direct entries
add the regular net change, inbound transfers add the transferred quantity;
the result is floored at zero. -/
def specEnding (cur : ℚ) (e : Entry) : ℚ :=
  match e with
  | (EntryKind.direct, m) =>
      if m.transaction_type = TransactionType.interCompanyTransfer then
        max 0 (cur - m.inter_company_transfer_kg)
      else max 0 (cur + netChange m)
  | (EntryKind.transferTo, m) => max 0 (cur + m.inter_company_transfer_kg)

/-- Modelled from the spec, 4.2: the final total at a location obtained by
replaying all movements of the product as in 4.1 steps 2-4 (sorted by date
then creation time, first entry starting from its own stored
`beginning_balance`, each later entry from the previous ending balance);
an empty affecting sequence yields 0. -/
def specReplayFinal (loc : Location) (ms : List Movement) : ℚ :=
  match List.insertionSort entryLe (specAffecting loc ms) with
  | [] => 0
  | e :: rest => rest.foldl specEnding (specEnding e.2.beginning_balance e)

/-!
### Derived notions used to state the claims
-/

/-- The signed contribution of one movement to the running total of one
location inside the `_compute_product_stock` loop. -/
def aggContrib (loc : Location) (m : Movement) : ℚ :=
  if m.transaction_type = TransactionType.stockAvailability ∧
      m.location = Location.nairobiPartner then 0
  else if m.transaction_type = TransactionType.interCompanyTransfer ∧
      m.location = Location.sezKenya ∧ 0 < m.inter_company_transfer_kg then
    (if loc = Location.sezKenya then -m.inter_company_transfer_kg else 0) +
      (if m.transfer_to_location = some loc then m.inter_company_transfer_kg else 0)
  else if m.location = loc then netChange m else 0

/-- The signed net effect of one chain entry on a location's running
balance (the spec's 4.1 step-4 arithmetic without the floor). -/
def entryDelta (e : Entry) : ℚ :=
  match e with
  | (EntryKind.direct, m) =>
      if m.transaction_type = TransactionType.interCompanyTransfer then
        -m.inter_company_transfer_kg
      else netChange m
  | (EntryKind.transferTo, m) => m.inter_company_transfer_kg

/-- Every partial sum `acc + d₁ + ⋯ + dᵢ` (i ≥ 1) stays non-negative: the
condition under which the per-step zero-floor of a replay never fires. -/
def allPrefixNonneg : ℚ → List ℚ → Bool
  | _, [] => true
  | acc, d :: ds => decide ((0 : ℚ) ≤ acc + d) && allPrefixNonneg (acc + d) ds

/-- Equality of all movement fields except the two recalculated balance
fields (`beginning_balance` and `balance_kg`). -/
def sameExceptBalances (m m' : Movement) : Prop :=
  m'.id = m.id ∧ m'.product_id = m.product_id ∧ m'.date = m.date ∧
    m'.created_at = m.created_at ∧ m'.location = m.location ∧
    m'.transaction_type = m.transaction_type ∧ m'.purchase_kg = m.purchase_kg ∧
    m'.sold_kg = m.sold_kg ∧
    m'.purchase_direct_shipment_kg = m.purchase_direct_shipment_kg ∧
    m'.sold_direct_shipment_kg = m.sold_direct_shipment_kg ∧
    m'.sample_or_damage_kg = m.sample_or_damage_kg ∧
    m'.inter_company_transfer_kg = m.inter_company_transfer_kg ∧
    m'.transfer_to_location = m.transfer_to_location

/-- The persisted balance of the chronologically last entry affecting a
location: the ledger's current balance for that location after all
recalculations. -/
def ledgerFinalBalance (pid : Nat) (loc : Location) (table : List Movement) : Option ℚ :=
  ((recalcChain pid loc table).getLast?).map fun e => e.2.balance_kg

/-!
### Concrete fixtures used by the claim theorems
-/

/-- A template movement row: product 1, Addis Ababa, Purchase, all
quantities zero. -/
def baseRow : Movement :=
  { id := 0
    product_id := 1
    date := 0
    created_at := none
    location := Location.addisAbaba
    transaction_type := TransactionType.purchase
    beginning_balance := 0
    purchase_kg := 0
    sold_kg := 0
    purchase_direct_shipment_kg := 0
    sold_direct_shipment_kg := 0
    sample_or_damage_kg := 0
    inter_company_transfer_kg := 0
    transfer_to_location := none
    balance_kg := 0 }

/-- A template creation body for product 1 with all quantities zero. -/
def baseBody : MovementCreate :=
  { product_id := 1
    tds_id := none
    date := 0
    location := Location.addisAbaba
    transaction_type := TransactionType.purchase
    beginning_balance := 0
    purchase_kg := 0
    sold_kg := 0
    purchase_direct_shipment_kg := 0
    sold_direct_shipment_kg := 0
    sample_or_damage_kg := 0
    inter_company_transfer_kg := 0
    transfer_to_location := none
    supplier_id := none
    customer_id := none }

/-- A referenced-record environment holding just product 1. -/
def env1 : Env := ⟨[1], [], [], []⟩

/-- C1 fixture: a purchase of 100 kg on day 5, consistent with its stored
balance. -/
def c1M1 : Movement :=
  { baseRow with id := 1, date := 5, created_at := some 1, purchase_kg := 100, balance_kg := 100 }

/-- C1 fixture: a sale of 30 kg on day 6, consistent with its stored
beginning (100) and balance (70). -/
def c1M2 : Movement :=
  { baseRow with
      id := 2, date := 6, created_at := some 2
      transaction_type := TransactionType.sales, sold_kg := 30
      beginning_balance := 100, balance_kg := 70 }

/-- C1 fixture: a retroactive purchase of 20 kg on day 4, dated before both
existing rows. -/
def c1Body : MovementCreate :=
  { baseBody with date := 4, purchase_kg := 20 }

/-- C3 fixture: an existing Stock Availability snapshot of 100 kg at Nairobi
Partner on day 1. -/
def c3E1 : Movement :=
  { baseRow with
      id := 1, date := 1, created_at := some 1
      location := Location.nairobiPartner
      transaction_type := TransactionType.stockAvailability
      beginning_balance := 100, balance_kg := 100 }

/-- C3 fixture: a new Stock Availability snapshot of 50 kg at Nairobi
Partner on day 2. -/
def c3Body : MovementCreate :=
  { baseBody with
      date := 2, location := Location.nairobiPartner
      transaction_type := TransactionType.stockAvailability
      beginning_balance := 50 }

/-- C4 fixture: 30 kg purchased at Addis Ababa on day 1. -/
def c4A : Movement :=
  { baseRow with id := 1, date := 1, created_at := some 1, purchase_kg := 30, balance_kg := 30 }

/-- C4 fixture: 30 kg purchased at SEZ Kenya on day 1. -/
def c4S : Movement :=
  { baseRow with
      id := 1, date := 1, created_at := some 1, location := Location.sezKenya
      purchase_kg := 30, balance_kg := 30 }

/-- C4 fixture: transfer 5 kg from Addis Ababa to SEZ Kenya on day 9. -/
def c4AddisTransferBody : MovementCreate :=
  { baseBody with
      date := 9, transaction_type := TransactionType.interCompanyTransfer
      inter_company_transfer_kg := 5, transfer_to_location := some Location.sezKenya }

/-- C4 fixture: transfer 5 kg from SEZ Kenya to Addis Ababa on day 9. -/
def c4SezTransferBody : MovementCreate :=
  { baseBody with
      date := 9, location := Location.sezKenya
      transaction_type := TransactionType.interCompanyTransfer
      inter_company_transfer_kg := 5, transfer_to_location := some Location.addisAbaba }

/-- C5 fixture: a single Addis Ababa movement whose stored beginning balance
is 100 and whose quantity fields are all zero. -/
def c5Row : Movement :=
  { baseRow with id := 1, date := 1, created_at := some 1
                 beginning_balance := 100, balance_kg := 100 }

/-- C7 fixture: purchase 5 kg at Addis Ababa on day 7. -/
def c7P : MovementCreate := { baseBody with date := 7, purchase_kg := 5 }

/-- C7 fixture: sell 10 kg at Addis Ababa on day 7. -/
def c7S : MovementCreate :=
  { baseBody with date := 7, transaction_type := TransactionType.sales, sold_kg := 10 }

/-- Insert two movement bodies in sequence into an empty table (ids 1 then 2,
creation timestamps 1 then 2), returning the resulting table. -/
def c7Run (b1 b2 : MovementCreate) : List Movement :=
  match createStockMovement env1 10 1 1 b1 [] with
  | Except.ok t =>
      match createStockMovement env1 20 2 2 b2 t with
      | Except.ok t2 => t2
      | Except.error _ => []
  | Except.error _ => []

/-- C8 fixture: a Purchase movement at Nairobi Partner (the enum mismatch of
the validation rules). -/
def c8Body : MovementCreate := { baseBody with location := Location.nairobiPartner }

/-- A row of product 1 whose id, date and creation stamp are all `i`. -/
def stampedRow (i : Nat) : Movement :=
  { baseRow with id := i, date := i, created_at := some i }

/-- C4 amended witness fixture: a transfer row of 5 kg from SEZ Kenya to
Addis Ababa on day 9. -/
def c4TRow : Movement :=
  { baseRow with
      id := 9, date := 9, created_at := some 9, location := Location.sezKenya
      transaction_type := TransactionType.interCompanyTransfer
      inter_company_transfer_kg := 5, transfer_to_location := some Location.addisAbaba }

/-- C5 amended witness fixture: a 10 kg purchase at Addis Ababa with zero
beginning balance. -/
def w5Row : Movement :=
  { baseRow with id := 1, date := 1, created_at := some 1, purchase_kg := 10, balance_kg := 10 }

/-!
## Theorems
-/

/-- C1: the balance recalculation pass does **not** chain newly computed
ending balances.  Starting from the consistent ledger (M1: +100 on day 5,
balance 100; M2: -30 on day 6, beginning 100, balance 70), creating a
retroactive +20 purchase dated day 4 recalculates M1 to ending balance 120,
yet M2 keeps beginning balance 100 and balance 70: the loop read the
*previously stored* balance of M1 (100), not its newly computed 120, so the
persisted ledger no longer equals the replay (which gives M2 beginning 120,
balance 90). -/
theorem c1_recalc_chains_previously_stored_balances :
    (createStockMovement env1 10 3 3 c1Body [c1M1, c1M2]).map
        (fun t => t.map fun m => (m.id, m.beginning_balance, m.balance_kg)) =
      Except.ok [(1, 20, 120), (2, 100, 70), (3, 0, 20)] ∧
    (100 : ℚ) ≠ 120 := by
  norm_num [createStockMovement, env1, c1Body, c1M1, c1M2, baseBody, baseRow, refMissing,
    deriveBeginningBalance, listStockMovements, dbBefore, createdDbBeforeB, isPrevious,
    insertedRow, createBalance, recalculateBalances, recalcChain, locationMovements,
    affectingEntry, entryLe, pyLe, pyLeB, createdKey, recalcWrites, recalcWritesAux,
    stepBalance, netChange, applyWrites, applyWrite, Except.map]
  try simp
  all_goals norm_num

/-- C3: the Nairobi Partner snapshot override fails end-to-end.  With an
existing Stock Availability snapshot of 100 on day 1, inserting a Stock
Availability entry with balance V = 50 on day 2 makes `get_product_stock`
report 100, not 50: the recalculation pass triggered by the creation has no
Stock Availability case and overwrites the new snapshot's balance (and
beginning balance) with the previous running balance. -/
theorem c3_snapshot_balance_overwritten_by_recalc :
    (createStockMovement env1 10 2 2 c3Body [c3E1]).map (computeProductStock 1) =
      Except.ok ⟨0, 0, 100⟩ ∧
    (createStockMovement env1 10 2 2 c3Body [c3E1]).map
        (fun t => t.map fun m => (m.id, m.beginning_balance, m.balance_kg)) =
      Except.ok [(1, 100, 100), (2, 100, 100)] ∧
    (100 : ℚ) ≠ 50 := by
  norm_num [createStockMovement, env1, c3Body, c3E1, baseBody, baseRow, refMissing,
    deriveBeginningBalance, listStockMovements, dbBefore, createdDbBeforeB, isPrevious,
    insertedRow, createBalance, recalculateBalances, recalcChain, locationMovements,
    affectingEntry, entryLe, pyLe, pyLeB, createdKey, recalcWrites, recalcWritesAux,
    stepBalance, netChange, applyWrites, applyWrite, Except.map,
    computeProductStock, aggState, aggStep, maxByPyKey, StockTotals.at, AggState.at]
  try simp
  all_goals norm_num

/-- C4 counterexample: transfer conservation fails as stated.
(i) A transfer of Q = 5 from Addis Ababa to SEZ Kenya leaves the reported
aggregation totals unchanged (30, 0): `_compute_product_stock` only accounts
for transfers whose recorded location is SEZ Kenya, so Addis Ababa does not
decrease by 5 and SEZ Kenya does not increase by 5.
(ii) Even for a SEZ-Kenya-origin transfer the *persisted ledger* violates
conservation: after transferring 5 of 30 away from SEZ Kenya, the
destination recalculation overwrites the transfer row, leaving SEZ Kenya's
chronologically last persisted balance at 35 instead of 25. -/
theorem c4_conservation_counterexample :
    (createStockMovement env1 10 9 9 c4AddisTransferBody [c4A]).map (computeProductStock 1) =
      Except.ok ⟨30, 0, 0⟩ ∧
    (30 : ℚ) ≠ 30 - 5 ∧ (0 : ℚ) ≠ 0 + 5 ∧
    (createStockMovement env1 10 9 9 c4SezTransferBody [c4S]).map
        (ledgerFinalBalance 1 Location.sezKenya) =
      Except.ok (some 35) ∧
    (35 : ℚ) ≠ 30 - 5 := by
  norm_num [createStockMovement, env1, c4AddisTransferBody, c4SezTransferBody, c4A, c4S,
    baseBody, baseRow, refMissing,
    deriveBeginningBalance, listStockMovements, dbBefore, createdDbBeforeB, isPrevious,
    insertedRow, createBalance, recalculateBalances, recalcChain, locationMovements,
    affectingEntry, entryLe, pyLe, pyLeB, createdKey, recalcWrites, recalcWritesAux,
    stepBalance, netChange, applyWrites, applyWrite, Except.map,
    computeProductStock, aggState, aggStep, maxByPyKey, StockTotals.at, AggState.at,
    ledgerFinalBalance]
  try simp [dbBefore, createdDbBeforeB, entryLe, pyLe, pyLeB, createdKey, maxByPyKey,
    aggStep, netChange, AggState.at]
  all_goals norm_num [aggStep, netChange, AggState.at, maxByPyKey]

/-- C5 counterexample: the per-location total computed by
`_compute_product_stock` is not the spec's 4.1 replay.  For a single Addis
Ababa movement with stored beginning balance 100 and zero quantity fields,
the 4.1 replay yields 100 (the first entry starts from its own
beginning balance) while the aggregation — which starts every location at 0
and ignores `beginning_balance` — reports 0. -/
theorem c5_aggregation_is_not_spec_replay :
    computeProductStock 1 [c5Row] = ⟨0, 0, 0⟩ ∧
    specReplayFinal Location.addisAbaba [c5Row] = 100 ∧
    (0 : ℚ) ≠ 100 := by
  norm_num [computeProductStock, aggState, listStockMovements, aggStep, c5Row, baseRow,
    netChange, maxByPyKey, StockTotals.at, dbBefore, createdDbBeforeB, AggState.at,
    specReplayFinal, specAffecting, specAffectingEntry, specEnding, entryLe, pyLe, pyLeB,
    createdKey]
  try simp
  all_goals norm_num

/-- C7 counterexample: two same-day movements inserted in either order do
**not** yield identical final balances.  On an empty ledger, inserting
(+5 purchase) then (-10 sale), both dated day 7, leaves the location's final
persisted balance at 0 (the sale is floored at zero after the purchase);
inserting the sale first and the purchase second leaves it at 5 (the sale is
floored at zero while the stock is still empty).  Creation timestamps follow
insertion order, so the deterministic (date, created_at) sort replays the
two orders differently and the zero-floor makes them inequivalent. -/
theorem c7_insertion_order_observable :
    ledgerFinalBalance 1 Location.addisAbaba (c7Run c7P c7S) = some 0 ∧
    ledgerFinalBalance 1 Location.addisAbaba (c7Run c7S c7P) = some 5 ∧
    some (0 : ℚ) ≠ some (5 : ℚ) := by
  norm_num [c7Run, createStockMovement, env1, c7P, c7S, baseBody, baseRow, refMissing,
    deriveBeginningBalance, listStockMovements, dbBefore, createdDbBeforeB, isPrevious,
    insertedRow, createBalance, recalculateBalances, recalcChain, locationMovements,
    affectingEntry, entryLe, pyLe, pyLeB, createdKey, recalcWrites, recalcWritesAux,
    stepBalance, netChange, applyWrites, applyWrite, ledgerFinalBalance]
  try simp
  all_goals norm_num

/-- C8 counterexample: at the in-process interface, a not-found error from
`update_stock_movement`/`delete_stock_movement` is **the same error kind**
(`ValueError`) as a validation error from `create_stock_movement` — they are
distinguished only by their message strings, not by a different kind. -/
theorem c8_not_found_same_kind_as_validation :
    updateStockMovement 99 {} [] =
      Except.error (PyError.valueError "Stock movement not found") ∧
    deleteStockMovement 99 [] =
      Except.error (PyError.valueError "Stock movement not found") ∧
    createStockMovement env1 0 0 0 c8Body [] =
      Except.error (PyError.valueError
        "Nairobi Partner location can only have Stock Availability transaction type") ∧
    PyError.kind (PyError.valueError "Stock movement not found") =
      PyError.kind (PyError.valueError
        "Nairobi Partner location can only have Stock Availability transaction type") := by
  norm_num [updateStockMovement, deleteStockMovement, createStockMovement, env1, c8Body,
    baseBody, refMissing, PyError.kind, List.find?]
  try simp
  all_goals norm_num

/-- C8 amended: not-found and validation errors are both raised as
`ValueError` in process and are distinguished by the HTTP layer, which maps
`ValueError` from update/delete to status 404 and `ValueError` from create
to status 400 (and by their distinct messages). -/
theorem c8_distinguished_at_http_layer :
    updateEndpointStatus (updateStockMovement 99 {} []) = 404 ∧
    deleteEndpointStatus (deleteStockMovement 99 []) = 404 ∧
    createEndpointStatus (createStockMovement env1 0 0 0 c8Body []) = 400 ∧
    "Stock movement not found" ≠
      "Nairobi Partner location can only have Stock Availability transaction type" ∧
    (404 : Nat) ≠ 400 := by
  norm_num [updateStockMovement, deleteStockMovement, createStockMovement, env1, c8Body,
    baseBody, refMissing, List.find?, updateEndpointStatus, deleteEndpointStatus,
    createEndpointStatus]
  try simp
  all_goals norm_num


/-- C6: a movement body whose location is Nairobi Partner with a transaction
type other than Stock Availability, or whose transaction type is Stock
Availability at a location other than Nairobi Partner, is rejected by
`create_stock_movement` with a `ValueError` before anything is inserted:
the result is an error and no table is produced, so no stored movement or
balance changes. -/
theorem c6_mismatch_is_rejected (env : Env) (now newId newCreated : Nat)
    (body : MovementCreate) (table : List Movement)
    (h : (body.location = Location.nairobiPartner ∧
            body.transaction_type ≠ TransactionType.stockAvailability) ∨
         (body.location ≠ Location.nairobiPartner ∧
            body.transaction_type = TransactionType.stockAvailability)) :
    ∃ msg, createStockMovement env now newId newCreated body table =
      Except.error (PyError.valueError msg) := by
  unfold createStockMovement
  by_cases hp : body.product_id ∉ env.products
  · rw [if_pos hp]; exact ⟨_, rfl⟩
  · rw [if_neg hp]
    rcases h with ⟨h1, h2⟩ | ⟨h1, h2⟩
    · rw [if_pos ⟨h1, h2⟩]; exact ⟨_, rfl⟩
    · have hfirst : ¬(body.location = Location.nairobiPartner ∧
          body.transaction_type ≠ TransactionType.stockAvailability) := by
        rintro ⟨h3, _⟩; exact h1 h3
      rw [if_neg hfirst, if_pos ⟨h1, h2⟩]; exact ⟨_, rfl⟩

/-- C6 witness: a Purchase at Nairobi Partner is rejected. -/
theorem c6_mismatch_witness :
    ∃ msg, createStockMovement env1 0 0 0 c8Body [] =
      Except.error (PyError.valueError msg) :=
  c6_mismatch_is_rejected env1 0 0 0 c8Body []
    (Or.inl ⟨rfl, by decide⟩)

/-- Every balance written by the replay loop of `_recalculate_balances` is
the result of `max(0.0, new_balance)`, hence non-negative. -/
theorem recalcWritesAux_balance_nonneg (loc : Location) :
    ∀ (es : List Entry) (prev? : Option Movement) (w : BalWrite),
      w ∈ recalcWritesAux loc prev? es → 0 ≤ w.balance_kg := by
  intro es
  induction es with
  | nil => intro prev? w hw; simp [recalcWritesAux] at hw
  | cons e rest ih =>
    intro prev? w hw
    simp only [recalcWritesAux, List.mem_cons] at hw
    rcases hw with rfl | hw
    · exact le_max_left 0 _
    · exact ih (some e.2) w hw

/-- An affecting entry wraps the movement it was built from. -/
theorem affectingEntry_snd {loc : Location} {m : Movement} {e : Entry}
    (h : affectingEntry loc m = some e) : e.2 = m := by
  unfold affectingEntry at h
  split_ifs at h <;> cases h <;> rfl

/-- Every entry replayed by `_recalculate_balances` wraps one of the fetched
movements. -/
theorem recalcChain_mem {pid : Nat} {loc : Location} {table : List Movement} {e : Entry}
    (h : e ∈ recalcChain pid loc table) : e.2 ∈ listStockMovements pid 10000 table := by
  unfold recalcChain at h
  rw [List.mem_insertionSort] at h
  unfold locationMovements at h
  rw [List.mem_filterMap] at h
  obtain ⟨m, hm, he⟩ := h
  rw [affectingEntry_snd he]
  exact hm

/-- Every fetched movement is a row of the table. -/
theorem listStockMovements_mem {pid limit : Nat} {table : List Movement} {m : Movement}
    (h : m ∈ listStockMovements pid limit table) : m ∈ table := by
  unfold listStockMovements at h
  have h2 := List.mem_of_mem_take h
  rw [List.mem_insertionSort, List.mem_filter] at h2
  exact h2.1

/-- If every replayed entry carries non-negative stored balances, every
`beginning_balance` written by the replay loop is non-negative. -/
theorem recalcWritesAux_beginning_nonneg (loc : Location) :
    ∀ (es : List Entry) (prev? : Option Movement),
      (∀ e ∈ es, 0 ≤ e.2.beginning_balance ∧ 0 ≤ e.2.balance_kg) →
      (∀ p, prev? = some p → 0 ≤ p.balance_kg) →
      ∀ w ∈ recalcWritesAux loc prev? es, 0 ≤ w.beginning_balance := by
  intro es
  induction es with
  | nil => intro prev? _ _ w hw; simp [recalcWritesAux] at hw
  | cons e rest ih =>
    intro prev? hes hprev w hw
    simp only [recalcWritesAux, List.mem_cons] at hw
    rcases hw with rfl | hw
    · rcases prev? with _ | p
      · exact (hes e (List.mem_cons_self e rest)).1
      · exact hprev p rfl
    · refine ih (some e.2) (fun e' he' => hes e' (List.mem_cons_of_mem e he')) ?_ w hw
      intro p hp
      cases hp
      exact (hes e (List.mem_cons_self e rest)).2

/-- C2: no computed balance is ever negative.  (i) Every `balance_kg` written
by the recalculation pass is floored at zero; (ii) the `balance_kg` stored by
movement creation is floored at zero; (iii) every per-location total reported
by the product stock aggregation is floored at zero; and (iv) on a table
whose stored balances satisfy the non-negativity invariant, even the
`beginning_balance` values written by the recalculation pass are
non-negative. -/
theorem c2_no_negative_balance :
    (∀ (loc : Location) (chain : List Entry) (w : BalWrite),
        w ∈ recalcWrites loc chain → 0 ≤ w.balance_kg) ∧
    (∀ (newId newCreated : Nat) (body : MovementCreate),
        0 ≤ (insertedRow newId newCreated body).balance_kg) ∧
    (∀ (pid : Nat) (table : List Movement) (loc : Location),
        0 ≤ (computeProductStock pid table).at loc) ∧
    (∀ (pid : Nat) (loc : Location) (table : List Movement) (w : BalWrite),
        (∀ m ∈ table, 0 ≤ m.beginning_balance ∧ 0 ≤ m.balance_kg) →
        w ∈ recalcWrites loc (recalcChain pid loc table) → 0 ≤ w.beginning_balance) := by
  refine ⟨?_, ?_, ?_, ?_⟩
  · intro loc chain w hw
    exact recalcWritesAux_balance_nonneg loc chain none w hw
  · intro newId newCreated body
    exact le_max_left 0 _
  · intro pid table loc
    cases loc <;> simp [computeProductStock, StockTotals.at]
  · intro pid loc table w hinv hw
    refine recalcWritesAux_beginning_nonneg loc (recalcChain pid loc table) none ?_
      (by intro p hp; cases hp) w hw
    intro e he
    exact hinv e.2 (listStockMovements_mem (recalcChain_mem he))

/-- C2 witness: the write produced for a zero-quantity row of product 1 has a
non-negative beginning balance. -/
theorem c2_no_negative_balance_witness :
    0 ≤ (⟨0, 0, 0⟩ : BalWrite).beginning_balance := by
  refine c2_no_negative_balance.2.2.2 1 Location.addisAbaba [baseRow] ⟨0, 0, 0⟩ ?_ ?_
  · intro m hm
    rcases List.mem_singleton.mp hm with rfl
    constructor <;> norm_num [baseRow]
  · simp [recalcWrites, recalcWritesAux, recalcChain, listStockMovements, locationMovements,
      affectingEntry, baseRow, stepBalance, netChange, entryLe, dbBefore, createdDbBeforeB]

/-- `sameExceptBalances` is reflexive. -/
theorem sameExceptBalances_refl (m : Movement) : sameExceptBalances m m := by
  simp [sameExceptBalances]

/-- `sameExceptBalances` is transitive. -/
theorem sameExceptBalances_trans {a b c : Movement}
    (h1 : sameExceptBalances a b) (h2 : sameExceptBalances b c) :
    sameExceptBalances a c := by
  unfold sameExceptBalances at *
  obtain ⟨e1, e2, e3, e4, e5, e6, e7, e8, e9, e10, e11, e12, e13⟩ := h1
  obtain ⟨f1, f2, f3, f4, f5, f6, f7, f8, f9, f10, f11, f12, f13⟩ := h2
  exact ⟨f1.trans e1, f2.trans e2, f3.trans e3, f4.trans e4, f5.trans e5, f6.trans e6,
    f7.trans e7, f8.trans e8, f9.trans e9, f10.trans e10, f11.trans e11, f12.trans e12,
    f13.trans e13⟩

/-- A single balance update changes nothing but the two balance fields. -/
theorem applyWrite_same (w : BalWrite) (m : Movement) :
    sameExceptBalances m (applyWrite w m) := by
  unfold applyWrite
  split_ifs <;> simp [sameExceptBalances]

/-- Every row of a table after a sequence of balance updates descends from a
row of the original table with only the balance fields changed. -/
theorem applyWrites_frame : ∀ (ws : List BalWrite) (table : List Movement) (m' : Movement),
    m' ∈ applyWrites ws table → ∃ m ∈ table, sameExceptBalances m m' := by
  intro ws
  induction ws with
  | nil => intro table m' h; exact ⟨m', h, sameExceptBalances_refl m'⟩
  | cons w ws ih =>
    intro table m' h
    have hstep : applyWrites (w :: ws) table = applyWrites ws (table.map (applyWrite w)) := rfl
    rw [hstep] at h
    obtain ⟨mm, hmm, hsame⟩ := ih _ m' h
    obtain ⟨m, hm, rfl⟩ := List.mem_map.mp hmm
    exact ⟨m, hm, sameExceptBalances_trans (applyWrite_same w m) hsame⟩

/-- `_recalculate_balances` changes nothing but the two balance fields of
existing rows. -/
theorem recalculateBalances_frame {pid : Nat} {loc : Location} {table : List Movement}
    {m' : Movement} (h : m' ∈ recalculateBalances pid loc table) :
    ∃ m ∈ table, sameExceptBalances m m' :=
  applyWrites_frame _ table m' h

/-- A supplied quantity field makes `update_data` nonempty. -/
theorem quantitySet_anySet (u : MovementUpdate) (h : u.quantitySet = true) :
    u.anySet = true := by
  simp only [MovementUpdate.quantitySet, Bool.or_eq_true] at h
  simp only [MovementUpdate.anySet, Bool.or_eq_true]
  tauto

/-- C9: when an update body supplies at least one quantity field, none of its
field values are written.  (i) Any two such bodies produce the identical
result (the supplied values are discarded); (ii) every row of the resulting
table descends from a row of the original table with only `beginning_balance`
and `balance_kg` changed — both overwritten by the recalculation pass. -/
theorem c9_quantity_update_discarded
    (mid : Nat) (u u' : MovementUpdate) (table : List Movement) (ex : Movement)
    (hfind : table.find? (fun m => m.id = mid) = some ex)
    (hq : u.quantitySet = true) (hq' : u'.quantitySet = true) :
    updateStockMovement mid u table = updateStockMovement mid u' table ∧
    ∀ t, updateStockMovement mid u table = Except.ok t →
      ∀ m' ∈ t, ∃ m ∈ table, sameExceptBalances m m' := by
  have hred : ∀ v : MovementUpdate, v.quantitySet = true →
      updateStockMovement mid v table = quantityRecalcResult mid ex table := by
    intro v hv
    unfold updateStockMovement
    rw [hfind]
    have hany : v.anySet = true := quantitySet_anySet v hv
    dsimp only
    rw [if_neg (by simp [hany]), if_pos (by simp [hv])]
  have hframe : ∀ m' ∈ (if ex.transaction_type = TransactionType.interCompanyTransfer then
        match ex.transfer_to_location with
        | some dest => recalculateBalances ex.product_id dest
            (recalculateBalances ex.product_id ex.location table)
        | none => recalculateBalances ex.product_id ex.location table
      else recalculateBalances ex.product_id ex.location table),
      ∃ m ∈ table, sameExceptBalances m m' := by
    intro m' hm'
    by_cases hc : ex.transaction_type = TransactionType.interCompanyTransfer
    · rw [if_pos hc] at hm'
      rcases htt : ex.transfer_to_location with _ | dest
      · rw [htt] at hm'
        exact recalculateBalances_frame hm'
      · rw [htt] at hm'
        obtain ⟨m1, hm1, hs1⟩ := recalculateBalances_frame hm'
        obtain ⟨m0, hm0, hs0⟩ := recalculateBalances_frame hm1
        exact ⟨m0, hm0, sameExceptBalances_trans hs0 hs1⟩
    · rw [if_neg hc] at hm'
      exact recalculateBalances_frame hm'
  refine ⟨by rw [hred u hq, hred u' hq'], ?_⟩
  intro t hok m' hm'
  rw [hred u hq] at hok
  unfold quantityRecalcResult at hok
  dsimp only at hok
  rcases hfd : (if ex.transaction_type = TransactionType.interCompanyTransfer then
        match ex.transfer_to_location with
        | some dest => recalculateBalances ex.product_id dest
            (recalculateBalances ex.product_id ex.location table)
        | none => recalculateBalances ex.product_id ex.location table
      else recalculateBalances ex.product_id ex.location table).find?
        (fun m => m.id = mid) with _ | m2
  · rw [hfd] at hok
    simp at hok
  · rw [hfd] at hok
    have ht : (if ex.transaction_type = TransactionType.interCompanyTransfer then
        match ex.transfer_to_location with
        | some dest => recalculateBalances ex.product_id dest
            (recalculateBalances ex.product_id ex.location table)
        | none => recalculateBalances ex.product_id ex.location table
      else recalculateBalances ex.product_id ex.location table) = t := by
      injection hok
    rw [ht] at hframe
    exact hframe m' hm'

/-- C9 witness: two different quantity updates of the only row of a table
produce the identical result. -/
theorem c9_quantity_update_discarded_witness :
    updateStockMovement 0 { purchase_kg := some 5 } [baseRow] =
      updateStockMovement 0 { sold_kg := some 3 } [baseRow] :=
  (c9_quantity_update_discarded 0 { purchase_kg := some 5 } { sold_kg := some 3 }
    [baseRow] baseRow rfl rfl rfl).1

/-- C10: every ledger read fetches at most `limit` rows (10000 at all three
call sites).  (i) The fetch returns `min limit n` of the product's `n` rows;
(ii) the fetched rows are ordered most recent first; (iii) any of the
product's rows that is not fetched is at least as old as every fetched row —
the excess oldest rows are the ones silently excluded; (iv) the
recalculation replay reads only the (at most 10000) fetched rows. -/
theorem c10_ledger_reads_truncated (pid limit : Nat) (table : List Movement) :
    (listStockMovements pid limit table).length =
      min limit (table.filter (fun m => m.product_id = pid)).length ∧
    List.Sorted dbBefore (listStockMovements pid limit table) ∧
    (∀ m ∈ table.filter (fun m => m.product_id = pid),
        m ∉ listStockMovements pid limit table →
        ∀ m' ∈ listStockMovements pid limit table, dbBefore m' m) ∧
    (∀ (loc : Location) (e : Entry), e ∈ recalcChain pid loc table →
        e.2 ∈ listStockMovements pid 10000 table) := by
  refine ⟨?_, ?_, ?_, ?_⟩
  · unfold listStockMovements
    rw [List.length_take, List.length_insertionSort]
  · exact List.Pairwise.sublist (List.take_sublist _ _)
      (List.sorted_insertionSort dbBefore _)
  · intro m hm hnot m' hm'
    unfold listStockMovements at hnot hm'
    have hsort : List.Sorted dbBefore
        (List.insertionSort dbBefore (table.filter (fun m => m.product_id = pid))) :=
      List.sorted_insertionSort dbBefore _
    have hmem : m ∈ List.insertionSort dbBefore (table.filter (fun m => m.product_id = pid)) :=
      (List.mem_insertionSort dbBefore).mpr hm
    rw [← List.take_append_drop limit
      (List.insertionSort dbBefore (table.filter (fun m => m.product_id = pid)))] at hmem
    rcases List.mem_append.mp hmem with h | h
    · exact absurd h hnot
    · exact List.Sorted.rel_of_mem_take_of_mem_drop hsort hm' h
  · intro loc e he
    exact recalcChain_mem he

/-- C10 witness: with limit 2 over three rows, the oldest row (day 1) is
excluded and ranks after the fetched newest row (day 3). -/
theorem c10_ledger_reads_truncated_witness :
    dbBefore (stampedRow 3) (stampedRow 1) :=
  (c10_ledger_reads_truncated 1 2 [stampedRow 1, stampedRow 2, stampedRow 3]).2.2.1
    (stampedRow 1) (by decide) (by decide) (stampedRow 3) (by decide)

/-- Each aggregation-loop iteration adds the movement's signed contribution
to each location's running total. -/
theorem aggStep_at (loc : Location) (st : AggState) (m : Movement) :
    (aggStep st m).at loc = st.at loc + aggContrib loc m := by
  unfold aggStep aggContrib
  by_cases h1 : m.transaction_type = TransactionType.stockAvailability ∧
      m.location = Location.nairobiPartner
  · rw [if_pos h1, if_pos h1]
    cases loc <;> simp [AggState.at]
  · rw [if_neg h1, if_neg h1]
    by_cases h2 : m.transaction_type = TransactionType.interCompanyTransfer ∧
        m.location = Location.sezKenya ∧ 0 < m.inter_company_transfer_kg
    · rw [if_pos h2, if_pos h2]
      rcases htt : m.transfer_to_location with _ | d
      · cases loc <;> simp [AggState.at] <;> ring
      · cases d <;> cases loc <;> simp [AggState.at] <;> ring
    · rw [if_neg h2, if_neg h2]
      rcases hml : m.location <;> cases loc <;> simp [AggState.at, hml] <;> ring

/-- The aggregation loop computes, at each location, the initial value plus
the sum of the movements' signed contributions. -/
theorem aggFold_at (loc : Location) :
    ∀ (l : List Movement) (st : AggState),
      (l.foldl aggStep st).at loc = st.at loc + (l.map (aggContrib loc)).sum := by
  intro l
  induction l with
  | nil => intro st; simp
  | cons m rest ih =>
    intro st
    simp only [List.foldl_cons, List.map_cons, List.sum_cons]
    rw [ih, aggStep_at]
    ring

/-- Each aggregation-loop iteration appends the movement to the
`nairobi_stock_availability` list exactly when it is a Stock Availability
entry at Nairobi Partner. -/
theorem aggStep_saList (st : AggState) (m : Movement) :
    (aggStep st m).saList =
      st.saList ++ (if m.transaction_type = TransactionType.stockAvailability ∧
        m.location = Location.nairobiPartner then [m] else []) := by
  unfold aggStep
  by_cases h1 : m.transaction_type = TransactionType.stockAvailability ∧
      m.location = Location.nairobiPartner
  · rw [if_pos h1, if_pos h1]
  · rw [if_neg h1, if_neg h1]
    by_cases h2 : m.transaction_type = TransactionType.interCompanyTransfer ∧
        m.location = Location.sezKenya ∧ 0 < m.inter_company_transfer_kg
    · rw [if_pos h2]
      rcases htt : m.transfer_to_location with _ | d
      · simp
      · cases d <;> simp
    · rw [if_neg h2]
      rcases hml : m.location <;> simp

/-- The aggregation loop collects exactly the Stock Availability entries at
Nairobi Partner. -/
theorem aggFold_saList :
    ∀ (l : List Movement) (st : AggState),
      (l.foldl aggStep st).saList =
        st.saList ++ l.filter (fun m =>
          decide (m.transaction_type = TransactionType.stockAvailability ∧
            m.location = Location.nairobiPartner)) := by
  intro l
  induction l with
  | nil => intro st; simp
  | cons m rest ih =>
    intro st
    simp only [List.foldl_cons, List.filter_cons]
    rw [ih, aggStep_saList]
    by_cases h1 : m.transaction_type = TransactionType.stockAvailability ∧
        m.location = Location.nairobiPartner
    · rw [if_pos h1, if_pos (by exact decide_eq_true h1)]
      simp
    · rw [if_neg h1, if_neg (by simpa using h1)]
      simp

/-- When the product has at most `limit` rows, the fetch is a permutation of
all of its rows. -/
theorem fetch_perm {pid limit : Nat} {table : List Movement}
    (h : (table.filter (fun m => m.product_id = pid)).length ≤ limit) :
    List.Perm (listStockMovements pid limit table)
      (table.filter (fun m => m.product_id = pid)) := by
  unfold listStockMovements
  rw [List.take_of_length_le (by rw [List.length_insertionSort]; exact h)]
  exact List.perm_insertionSort dbBefore _

/-- The raw (pre-floor) aggregation total at each location is the sum of the
fetched movements' signed contributions. -/
theorem aggState_at (pid : Nat) (X : List Movement) (loc : Location) :
    (aggState pid X).at loc = ((listStockMovements pid 10000 X).map (aggContrib loc)).sum := by
  unfold aggState
  rw [aggFold_at]
  cases loc <;> simp [AggState.at]

/-- With no Stock Availability entries collected, every reported total is the
floored raw total. -/
theorem computeProductStock_at_raw (pid : Nat) (X : List Movement)
    (hnil : (aggState pid X).saList = []) (loc : Location) :
    (computeProductStock pid X).at loc = max 0 ((aggState pid X).at loc) := by
  unfold computeProductStock
  cases loc <;> simp [StockTotals.at, AggState.at, hnil]

/-- C4 amended: transfer conservation holds in the product stock aggregation
for transfers originating at SEZ Kenya.  Appending a SEZ-Kenya inter-company
transfer of quantity Q to a destination other than SEZ Kenya decreases the
raw SEZ Kenya total by exactly Q and increases the raw destination total by
exactly Q, and (in the absence of Stock Availability entries) every reported
total is the raw total floored at zero. -/
theorem c4_sez_origin_aggregation_conservation
    (pid : Nat) (table : List Movement) (t : Movement) (d : Location)
    (ht1 : t.transaction_type = TransactionType.interCompanyTransfer)
    (ht2 : t.location = Location.sezKenya)
    (ht3 : t.transfer_to_location = some d)
    (ht4 : 0 < t.inter_company_transfer_kg)
    (ht5 : t.product_id = pid)
    (hd : d ≠ Location.sezKenya)
    (hlen : (((table ++ [t]).filter (fun m => m.product_id = pid)).length ≤ 10000))
    (hsa : ∀ m ∈ table, ¬(m.transaction_type = TransactionType.stockAvailability ∧
        m.location = Location.nairobiPartner)) :
    (aggState pid (table ++ [t])).at Location.sezKenya =
      (aggState pid table).at Location.sezKenya - t.inter_company_transfer_kg ∧
    (aggState pid (table ++ [t])).at d =
      (aggState pid table).at d + t.inter_company_transfer_kg ∧
    (∀ loc : Location, (computeProductStock pid (table ++ [t])).at loc =
      max 0 ((aggState pid (table ++ [t])).at loc)) := by
  have hlen' : (table.filter (fun m => m.product_id = pid)).length ≤ 10000 := by
    rw [List.filter_append, List.length_append] at hlen
    omega
  have hfilter : (table ++ [t]).filter (fun m => m.product_id = pid) =
      table.filter (fun m => m.product_id = pid) ++ [t] := by
    rw [List.filter_append]
    congr 1
    simp [ht5]
  have hperm' : List.Perm (listStockMovements pid 10000 (table ++ [t]))
      (table.filter (fun m => m.product_id = pid) ++ [t]) := by
    have h0 := @fetch_perm pid 10000 (table ++ [t]) hlen
    rwa [hfilter] at h0
  have hperm0 := @fetch_perm pid 10000 table hlen'
  have hagg : ∀ loc, (aggState pid (table ++ [t])).at loc =
      (aggState pid table).at loc + aggContrib loc t := by
    intro loc
    rw [aggState_at, aggState_at,
      (hperm'.map (aggContrib loc)).sum_eq, (hperm0.map (aggContrib loc)).sum_eq,
      List.map_append]
    simp
  have hnotsa : ¬(t.transaction_type = TransactionType.stockAvailability ∧
      t.location = Location.nairobiPartner) := by
    rw [ht1]; rintro ⟨h, -⟩; cases h
  have hcsez : aggContrib Location.sezKenya t = -t.inter_company_transfer_kg := by
    unfold aggContrib
    rw [if_neg hnotsa, if_pos ⟨ht1, ht2, ht4⟩, ht3]
    have hne : ¬ (some d = some Location.sezKenya) := by
      simpa using hd
    rw [if_pos rfl, if_neg hne]
    ring
  have hcd : aggContrib d t = t.inter_company_transfer_kg := by
    unfold aggContrib
    rw [if_neg hnotsa, if_pos ⟨ht1, ht2, ht4⟩, ht3]
    rw [if_neg hd, if_pos rfl]
    ring
  have hnil : (aggState pid (table ++ [t])).saList = [] := by
    unfold aggState
    rw [aggFold_saList]
    simp only [List.nil_append]
    rw [List.filter_eq_nil_iff]
    intro m hm
    have hmem := listStockMovements_mem hm
    rcases List.mem_append.mp hmem with h | h
    · simpa using hsa m h
    · rcases List.mem_singleton.mp h with rfl
      simpa using hnotsa
  refine ⟨?_, ?_, ?_⟩
  · rw [hagg Location.sezKenya, hcsez]; ring
  · rw [hagg d, hcd]
  · intro loc
    exact computeProductStock_at_raw pid (table ++ [t]) hnil loc

/-- C4 amended witness: transferring 5 kg of 30 from SEZ Kenya to Addis
Ababa moves the raw aggregation totals by exactly 5. -/
theorem c4_sez_origin_aggregation_conservation_witness :
    (aggState 1 ([c4S] ++ [c4TRow])).at Location.sezKenya =
      (aggState 1 [c4S]).at Location.sezKenya - c4TRow.inter_company_transfer_kg ∧
    (aggState 1 ([c4S] ++ [c4TRow])).at Location.addisAbaba =
      (aggState 1 [c4S]).at Location.addisAbaba + c4TRow.inter_company_transfer_kg := by
  have h := c4_sez_origin_aggregation_conservation 1 [c4S] c4TRow Location.addisAbaba
    rfl rfl rfl (by decide) rfl (by decide) (by decide) (by decide)
  exact ⟨h.1, h.2.1⟩

/-- A spec-affecting entry wraps the movement it was built from. -/
theorem specAffectingEntry_snd {loc : Location} {m : Movement} {e : Entry}
    (h : specAffectingEntry loc m = some e) : e.2 = m := by
  unfold specAffectingEntry at h
  split_ifs at h <;> cases h <;> rfl

/-- For the two accumulation locations, under the well-formedness conditions
of the ledger (all transfers originate at SEZ Kenya with positive quantity
and an external destination), a movement's aggregation contribution agrees
with its spec-replay delta. -/
theorem aggContrib_eq_specDelta (loc : Location) (hloc : loc ≠ Location.nairobiPartner)
    (m : Movement)
    (hm : m.transaction_type = TransactionType.interCompanyTransfer →
      m.location = Location.sezKenya ∧ 0 < m.inter_company_transfer_kg ∧
      m.transfer_to_location ≠ some Location.sezKenya) :
    aggContrib loc m = (match specAffectingEntry loc m with
      | some e => entryDelta e
      | none => 0) := by
  by_cases hsa : m.transaction_type = TransactionType.stockAvailability ∧
      m.location = Location.nairobiPartner
  · obtain ⟨hty, hl⟩ := hsa
    have h1 : ¬(m.location = loc) := by rw [hl]; exact fun h => hloc h.symm
    have h2 : ¬(m.transaction_type = TransactionType.interCompanyTransfer ∧
        m.transfer_to_location = some loc) := by
      rintro ⟨hh, -⟩; rw [hty] at hh; cases hh
    have hspec : specAffectingEntry loc m = none := by
      unfold specAffectingEntry; rw [if_neg h1, if_neg h2]
    have hc : aggContrib loc m = 0 := by
      unfold aggContrib; rw [if_pos ⟨hty, hl⟩]
    rw [hspec, hc]
  · by_cases hict : m.transaction_type = TransactionType.interCompanyTransfer
    · obtain ⟨hl, hq, hd⟩ := hm hict
      by_cases hll : m.location = loc
      · have hloc_sez : loc = Location.sezKenya := hll ▸ hl
        subst hloc_sez
        have hspec : specAffectingEntry Location.sezKenya m =
            some (EntryKind.direct, m) := by
          unfold specAffectingEntry; rw [if_pos hll]
        have hc : aggContrib Location.sezKenya m = -m.inter_company_transfer_kg := by
          unfold aggContrib
          rw [if_neg hsa, if_pos ⟨hict, hl, hq⟩, if_pos rfl, if_neg hd]
          ring
        rw [hspec, hc]
        dsimp only [entryDelta]
        rw [if_pos hict]
      · have hlz : ¬(loc = Location.sezKenya) := fun h => hll (h ▸ hl)
        by_cases htt : m.transfer_to_location = some loc
        · have hspec : specAffectingEntry loc m = some (EntryKind.transferTo, m) := by
            unfold specAffectingEntry; rw [if_neg hll, if_pos ⟨hict, htt⟩]
          have hc : aggContrib loc m = m.inter_company_transfer_kg := by
            unfold aggContrib
            rw [if_neg hsa, if_pos ⟨hict, hl, hq⟩, if_neg hlz, if_pos htt]
            ring
          rw [hspec, hc]
          rfl
        · have hspec : specAffectingEntry loc m = none := by
            unfold specAffectingEntry
            rw [if_neg hll, if_neg (by rintro ⟨-, hh⟩; exact htt hh)]
          have hc : aggContrib loc m = 0 := by
            unfold aggContrib
            rw [if_neg hsa, if_pos ⟨hict, hl, hq⟩, if_neg hlz, if_neg htt]
            ring
          rw [hspec, hc]
    · have h2 : ¬(m.transaction_type = TransactionType.interCompanyTransfer ∧
          m.transfer_to_location = some loc) := by rintro ⟨hh, -⟩; exact hict hh
      have h3 : ¬(m.transaction_type = TransactionType.interCompanyTransfer ∧
          m.location = Location.sezKenya ∧ 0 < m.inter_company_transfer_kg) := by
        rintro ⟨hh, -⟩; exact hict hh
      by_cases hll : m.location = loc
      · have hspec : specAffectingEntry loc m = some (EntryKind.direct, m) := by
          unfold specAffectingEntry; rw [if_pos hll]
        have hc : aggContrib loc m = netChange m := by
          unfold aggContrib
          rw [if_neg hsa, if_neg h3, if_pos hll]
        rw [hspec, hc]
        dsimp only [entryDelta]
        rw [if_neg hict]
      · have hspec : specAffectingEntry loc m = none := by
          unfold specAffectingEntry; rw [if_neg hll, if_neg h2]
        have hc : aggContrib loc m = 0 := by
          unfold aggContrib
          rw [if_neg hsa, if_neg h3, if_neg hll]
        rw [hspec, hc]

/-- Summed over any ledger satisfying the well-formedness conditions, the
aggregation contributions at an accumulation location equal the spec-replay
deltas of its affecting entries. -/
theorem sum_aggContrib_eq_specDelta (loc : Location) (hloc : loc ≠ Location.nairobiPartner) :
    ∀ (ms : List Movement),
      (∀ m ∈ ms, m.transaction_type = TransactionType.interCompanyTransfer →
        m.location = Location.sezKenya ∧ 0 < m.inter_company_transfer_kg ∧
        m.transfer_to_location ≠ some Location.sezKenya) →
      (ms.map (aggContrib loc)).sum = ((specAffecting loc ms).map entryDelta).sum := by
  intro ms
  induction ms with
  | nil => intro _; simp [specAffecting]
  | cons m rest ih =>
    intro h
    have hm := h m (List.mem_cons_self m rest)
    have hrest := fun m' hm' => h m' (List.mem_cons_of_mem m hm')
    simp only [List.map_cons, List.sum_cons, specAffecting, List.filterMap_cons]
    rcases hfm : specAffectingEntry loc m with _ | e
    · rw [aggContrib_eq_specDelta loc hloc m hm, hfm]
      have hser := ih hrest
      unfold specAffecting at hser
      rw [hser]
      simp
    · rw [aggContrib_eq_specDelta loc hloc m hm, hfm]
      simp only [List.map_cons, List.sum_cons]
      have hser := ih hrest
      unfold specAffecting at hser
      rw [hser]

/-- The spec's per-entry ending balance is the floored sum of the starting
balance and the entry's signed delta. -/
theorem specEnding_eq (cur : ℚ) (e : Entry) :
    specEnding cur e = max 0 (cur + entryDelta e) := by
  rcases e with ⟨k, m⟩
  cases k
  · by_cases hict : m.transaction_type = TransactionType.interCompanyTransfer
    · have h1 : specEnding cur (EntryKind.direct, m) =
          max 0 (cur - m.inter_company_transfer_kg) := by
        dsimp only [specEnding]; rw [if_pos hict]
      have h2 : entryDelta (EntryKind.direct, m) = -m.inter_company_transfer_kg := by
        dsimp only [entryDelta]; rw [if_pos hict]
      rw [h1, h2, sub_eq_add_neg]
    · have h1 : specEnding cur (EntryKind.direct, m) = max 0 (cur + netChange m) := by
        dsimp only [specEnding]; rw [if_neg hict]
      have h2 : entryDelta (EntryKind.direct, m) = netChange m := by
        dsimp only [entryDelta]; rw [if_neg hict]
      rw [h1, h2]
  · rfl

/-- When no partial sum dips below zero, the floored replay fold equals the
plain sum. -/
theorem foldl_specEnding : ∀ (es : List Entry) (acc : ℚ),
    allPrefixNonneg acc (es.map entryDelta) = true →
    es.foldl specEnding acc = acc + (es.map entryDelta).sum := by
  intro es
  induction es with
  | nil => intro acc _; simp
  | cons e rest ih =>
    intro acc h
    simp only [List.map_cons, allPrefixNonneg, Bool.and_eq_true, decide_eq_true_eq] at h
    obtain ⟨h1, h2⟩ := h
    simp only [List.foldl_cons, List.map_cons, List.sum_cons]
    rw [specEnding_eq, max_eq_right h1, ih _ h2]
    ring

/-- A non-negative start with all partial sums non-negative gives a
non-negative total. -/
theorem allPrefixNonneg_sum : ∀ (ds : List ℚ) (acc : ℚ), 0 ≤ acc →
    allPrefixNonneg acc ds = true → 0 ≤ acc + ds.sum := by
  intro ds
  induction ds with
  | nil => intro acc h _; simpa using h
  | cons d rest ih =>
    intro acc hacc h
    simp only [allPrefixNonneg, Bool.and_eq_true, decide_eq_true_eq] at h
    obtain ⟨h1, h2⟩ := h
    have hrest := ih (acc + d) h1 h2
    simp only [List.sum_cons]
    linarith

/-- C5 amended: for the two accumulation locations the aggregation total
coincides with the spec's 4.1 replay exactly when the replay's inputs are
degenerate in the ways the aggregation assumes — every stored beginning
balance is zero, every inter-company transfer originates at SEZ Kenya with
positive quantity and an external destination, the ledger fits in one fetch,
and no intermediate replay balance dips below zero (so the per-step floor
never fires).  The counterexample shows the equality fails without the
beginning-balance condition. -/
theorem c5_aggregation_matches_replay_conditionally
    (pid : Nat) (table : List Movement) (loc : Location)
    (hloc : loc ≠ Location.nairobiPartner)
    (hlen : (table.filter (fun m => m.product_id = pid)).length ≤ 10000)
    (hbeg : ∀ m ∈ table, m.beginning_balance = 0)
    (hict : ∀ m ∈ table, m.transaction_type = TransactionType.interCompanyTransfer →
      m.location = Location.sezKenya ∧ 0 < m.inter_company_transfer_kg ∧
      m.transfer_to_location ≠ some Location.sezKenya)
    (hfloor : allPrefixNonneg 0
      ((List.insertionSort entryLe
        (specAffecting loc (table.filter (fun m => m.product_id = pid)))).map
          entryDelta) = true) :
    (computeProductStock pid table).at loc =
      specReplayFinal loc (table.filter (fun m => m.product_id = pid)) := by
  have hreported : (computeProductStock pid table).at loc =
      max 0 ((aggState pid table).at loc) := by
    cases loc with
    | nairobiPartner => exact absurd rfl hloc
    | addisAbaba => rfl
    | sezKenya => rfl
  have hraw : (aggState pid table).at loc =
      ((table.filter (fun m => m.product_id = pid)).map (aggContrib loc)).sum := by
    rw [aggState_at, ((fetch_perm hlen).map (aggContrib loc)).sum_eq]
  have hictF : ∀ m ∈ table.filter (fun m => m.product_id = pid),
      m.transaction_type = TransactionType.interCompanyTransfer →
      m.location = Location.sezKenya ∧ 0 < m.inter_company_transfer_kg ∧
      m.transfer_to_location ≠ some Location.sezKenya := by
    intro m hm
    exact hict m (List.mem_filter.mp hm).1
  have hsum := sum_aggContrib_eq_specDelta loc hloc _ hictF
  have hperm2 : List.Perm
      (List.insertionSort entryLe
        (specAffecting loc (table.filter (fun m => m.product_id = pid))))
      (specAffecting loc (table.filter (fun m => m.product_id = pid))) :=
    List.perm_insertionSort entryLe _
  have hsum2 : ((specAffecting loc (table.filter (fun m => m.product_id = pid))).map
      entryDelta).sum =
      ((List.insertionSort entryLe
        (specAffecting loc (table.filter (fun m => m.product_id = pid)))).map
          entryDelta).sum :=
    ((hperm2.map entryDelta).sum_eq).symm
  rcases hchain : List.insertionSort entryLe
      (specAffecting loc (table.filter (fun m => m.product_id = pid))) with _ | ⟨e, rest⟩
  · have hnil : specAffecting loc (table.filter (fun m => m.product_id = pid)) = [] := by
      have h0 := hperm2
      rw [hchain] at h0
      exact (List.Perm.nil_eq h0).symm
    unfold specReplayFinal
    rw [hchain, hreported, hraw, hsum, hnil]
    simp
  · unfold specReplayFinal
    rw [hchain]
    dsimp only
    have hmem : e ∈ List.insertionSort entryLe
        (specAffecting loc (table.filter (fun m => m.product_id = pid))) := by
      rw [hchain]; exact List.mem_cons_self _ _
    rw [List.mem_insertionSort] at hmem
    have he2 : e.2 ∈ table := by
      unfold specAffecting at hmem
      rw [List.mem_filterMap] at hmem
      obtain ⟨m, hmF, hfm⟩ := hmem
      rw [specAffectingEntry_snd hfm]
      exact (List.mem_filter.mp hmF).1
    have he0 : e.2.beginning_balance = 0 := hbeg e.2 he2
    rw [hchain] at hfloor
    simp only [List.map_cons, allPrefixNonneg, Bool.and_eq_true, decide_eq_true_eq] at hfloor
    obtain ⟨h1, h2⟩ := hfloor
    rw [he0, specEnding_eq, max_eq_right (by rw [zero_add] at h1 ⊢; exact h1)]
    rw [foldl_specEnding rest (0 + entryDelta e) (by rwa [])]
    rw [hreported, hraw, hsum, hsum2, hchain]
    simp only [List.map_cons, List.sum_cons]
    have hsumnn : 0 ≤ (0 + entryDelta e) + (rest.map entryDelta).sum :=
      allPrefixNonneg_sum _ _ h1 h2
    rw [max_eq_right (by linarith)]
    ring

/-- C5 amended witness: for a single zero-beginning purchase the aggregation
total equals the spec replay. -/
theorem c5_aggregation_matches_replay_witness :
    (computeProductStock 1 [w5Row]).at Location.addisAbaba =
      specReplayFinal Location.addisAbaba ([w5Row].filter (fun m => m.product_id = 1)) :=
  c5_aggregation_matches_replay_conditionally 1 [w5Row] Location.addisAbaba (by decide)
    (by decide) (by decide) (by decide)
    (by
      norm_num [allPrefixNonneg, specAffecting, specAffectingEntry, entryDelta, netChange,
        entryLe, pyLe, pyLeB, createdKey, w5Row, baseRow]
      try simp
      all_goals norm_num)

set_option maxHeartbeats 800000 in
/-- Inserting two same-day purchases of `x` and `y` kilograms into an empty
ledger leaves the location's final persisted balance at `x + y`. -/
theorem c7Run_purchases (x y : ℚ) (hx : 0 ≤ x) (hy : 0 ≤ y) :
    ledgerFinalBalance 1 Location.addisAbaba
      (c7Run { baseBody with date := 7, purchase_kg := x }
        { baseBody with date := 7, purchase_kg := y }) = some (x + y) := by
  have hxy : (0:ℚ) ≤ x + y := add_nonneg hx hy
  have h1 : createStockMovement env1 10 1 1 { baseBody with date := 7, purchase_kg := x } [] =
      Except.ok [{ baseRow with
          id := 1, date := 7, created_at := some 1,
          purchase_kg := x, balance_kg := x }] := by
    norm_num [createStockMovement, env1, baseBody, baseRow, refMissing,
      deriveBeginningBalance, listStockMovements, dbBefore, createdDbBeforeB, isPrevious,
      insertedRow, createBalance, recalculateBalances, recalcChain, locationMovements,
      affectingEntry, entryLe, pyLe, pyLeB, createdKey, recalcWrites, recalcWritesAux,
      stepBalance, netChange, applyWrites, applyWrite, max_eq_right hx]
    try simp [max_eq_right hx]
    all_goals norm_num [max_eq_right hx]
  have h2 : createStockMovement env1 20 2 2 { baseBody with date := 7, purchase_kg := y }
      [{ baseRow with
          id := 1, date := 7, created_at := some 1,
          purchase_kg := x, balance_kg := x }] =
      Except.ok [{ baseRow with
            id := 1, date := 7, created_at := some 1,
            purchase_kg := x, balance_kg := x },
        { baseRow with
            id := 2, date := 7, created_at := some 2,
            purchase_kg := y, beginning_balance := x, balance_kg := x + y }] := by
    norm_num [createStockMovement, env1, baseBody, baseRow, refMissing,
      deriveBeginningBalance, listStockMovements, dbBefore, createdDbBeforeB, isPrevious,
      insertedRow, createBalance, recalculateBalances, recalcChain, locationMovements,
      affectingEntry, entryLe, pyLe, pyLeB, createdKey, recalcWrites, recalcWritesAux,
      stepBalance, netChange, applyWrites, applyWrite, max_eq_right hx, max_eq_right hxy]
    try simp [max_eq_right hx, max_eq_right hxy]
    all_goals norm_num [max_eq_right hx, max_eq_right hxy]
  have h3 : c7Run { baseBody with date := 7, purchase_kg := x }
      { baseBody with date := 7, purchase_kg := y } =
      [{ baseRow with
            id := 1, date := 7, created_at := some 1,
            purchase_kg := x, balance_kg := x },
        { baseRow with
            id := 2, date := 7, created_at := some 2,
            purchase_kg := y, beginning_balance := x, balance_kg := x + y }] := by
    unfold c7Run
    simp only [h1, h2]
  rw [h3]
  norm_num [ledgerFinalBalance, recalcChain, listStockMovements, locationMovements,
    affectingEntry, entryLe, pyLe, pyLeB, createdKey, dbBefore, createdDbBeforeB, baseRow]

/-- C7 amended: the `(date, created_at)` sort key is a deterministic total
order with missing timestamps sorting first, and two same-day movements
inserted in either order yield identical final balances exactly when the
zero-floor never fires — e.g. two purchases of `x` and `y` kilograms both
end at `x + y` in either insertion order (the counterexample shows a sale
and a purchase do not commute because the floor fires in one order). -/
theorem c7_amended_order_policy_and_commutation (x y : ℚ) (hx : 0 ≤ x) (hy : 0 ≤ y) :
    (∀ a b : Movement, pyLe a b ∨ pyLe b a) ∧
    (∀ a b : Movement, a.date = b.date → a.created_at = none → pyLe a b) ∧
    ledgerFinalBalance 1 Location.addisAbaba
        (c7Run { baseBody with date := 7, purchase_kg := x }
          { baseBody with date := 7, purchase_kg := y }) =
      ledgerFinalBalance 1 Location.addisAbaba
        (c7Run { baseBody with date := 7, purchase_kg := y }
          { baseBody with date := 7, purchase_kg := x }) ∧
    ledgerFinalBalance 1 Location.addisAbaba
        (c7Run { baseBody with date := 7, purchase_kg := x }
          { baseBody with date := 7, purchase_kg := y }) = some (x + y) := by
  refine ⟨fun a b => total_of pyLe a b, ?_, ?_, c7Run_purchases x y hx hy⟩
  · intro a b hdate hnone
    simp [pyLe, pyLeB, hdate, hnone, createdKey]
  · rw [c7Run_purchases x y hx hy, c7Run_purchases y x hy hx, add_comm]

/-- C7 amended witness: purchases of 2 and 3 kilograms end at 5 in either
insertion order. -/
theorem c7_amended_order_policy_witness :
    ledgerFinalBalance 1 Location.addisAbaba
        (c7Run { baseBody with date := 7, purchase_kg := 2 }
          { baseBody with date := 7, purchase_kg := 3 }) = some (2 + 3) :=
  (c7_amended_order_policy_and_commutation 2 3 (by norm_num) (by norm_num)).2.2.2

end IDPS
